import Mathlib

/-!
Shallow embedding of the postgres-backup repository (Go, two programs):
a backup orchestrator (enumerate databases, pg_dump each, upload to S3,
end-of-run deferred cleanup) and a restore orchestrator (list S3 keys under
a prefix, download each, decode the database name from the filename,
pg_restore each).  Go strings are modelled as `List Char` (byte strings,
exact for ASCII); external collaborators (catalog, S3, the dump/restore
tool) are modelled as oracles supplied through a world structure; Go
`defer` is modelled by accumulating registered removals and performing
them, last-in-first-out, when the orchestrating function returns.
-/

/-- Go strings, modelled as lists of characters. -/
abbrev GoStr := List Char

/-- Decimal digit character, as produced by Go's integer formatting. -/
def digitChar (n : Nat) : Char := Char.ofNat (48 + n % 10)

/-- Fuel-driven helper for decimal formatting; the fuel is structural so
that concrete values reduce by kernel computation, and it never runs out
when it exceeds the value. -/
def natToCharsAux : Nat → Nat → List Char
  | 0, _ => []
  | fuel + 1, n =>
    if n < 10 then [digitChar n]
    else natToCharsAux fuel (n / 10) ++ [digitChar (n % 10)]

/-- Decimal representation of a natural number, as produced by Go's
`fmt.Sprintf("%d", n)` for a non-negative value. -/
def natToChars (n : Nat) : List Char := natToCharsAux (n + 1) n

/-- Zero-padding to width `w`, as Go's `time.Format` layout components do
(a value wider than the layout keeps all its digits). -/
def padNum (w n : Nat) : List Char :=
  List.replicate (w - (natToChars n).length) '0' ++ natToChars n

/-- A wall-clock instant at second precision, the relevant content of Go's
`time.Time` for this program. -/
structure GoTime where
  year : Nat
  month : Nat
  day : Nat
  hour : Nat
  minute : Nat
  second : Nat
deriving DecidableEq

/-- Field bounds satisfied by every instant `time.Now()` can return (the
year has at most four digits, all other fields at most two). -/
def GoTime.Valid (t : GoTime) : Prop :=
  t.year < 10000 ∧ t.month < 100 ∧ t.day < 100 ∧
  t.hour < 100 ∧ t.minute < 100 ∧ t.second < 100

instance (t : GoTime) : Decidable t.Valid := by
  unfold GoTime.Valid
  infer_instance

/-- Go `time.Now().Format("20060102_150405")`: `YYYYMMDD_HHMMSS`. -/
def formatTimestamp (t : GoTime) : List Char :=
  padNum 4 t.year ++ padNum 2 t.month ++ padNum 2 t.day ++ ['_'] ++
  padNum 2 t.hour ++ padNum 2 t.minute ++ padNum 2 t.second

/-- Artifact Namer, encode direction (src/unnamed/part_000 line 53):
`fmt.Sprintf("%s_backup_%s.sql", dbName, time.Now().Format("20060102_150405"))`. -/
def backupFilename (dbName : GoStr) (t : GoTime) : GoStr :=
  dbName ++ "_backup_".data ++ formatTimestamp t ++ ".sql".data

/-- Go slice expression `s[:hi]`: defined when `0 ≤ hi ≤ len(s)`, a runtime
panic (modelled as `none`) otherwise. -/
def goSliceTo (s : GoStr) (hi : Int) : Option GoStr :=
  if 0 ≤ hi ∧ hi ≤ (s.length : Int) then some (s.take hi.toNat) else none

/-- Artifact Namer, decode direction (src/restore/main.go line 112):
`backupFilename[:len(backupFilename)-27]`. -/
def decodeDbName (f : GoStr) : Option GoStr :=
  goSliceTo f ((f.length : Int) - 27)

/-- Test whether the literal marker `_backup_` occurs as a contiguous
substring of a name. -/
def containsBackupMarker : GoStr → Bool
  | [] => "_backup_".data.isEmpty
  | c :: rest =>
    "_backup_".data.isPrefixOf (c :: rest) || containsBackupMarker rest

/-- Go `filepath.Base`: `.` for the empty path, otherwise strip trailing
separators, then keep everything after the last separator, `/` if nothing
is left. -/
def filepathBase (p : GoStr) : GoStr :=
  if p = [] then ".".data
  else
    let q := (p.reverse.dropWhile (· == '/')).reverse
    if q = [] then "/".data
    else (q.reverse.takeWhile (· != '/')).reverse

/-- Outcome oracle for the server catalog used by the Enumerator
(src/unnamed/part_000 lines 20-46): whether opening the connection fails,
whether the catalog query fails, the sequence of `datname` rows actually
delivered by `rows.Next()`/`rows.Scan()` (each of which may itself fail to
scan), and `itErr`, the error with which the row stream terminated when a
connectivity failure ended iteration early — the value `rows.Err()` would
report after `Next()` returns false.  When `itErr` is set, `rows` holds
only the rows delivered before the failure, a partial enumeration of the
server's databases. -/
structure Catalog where
  openErr : Option GoStr
  queryErr : Option GoStr
  rows : List (Except GoStr GoStr)
  itErr : Option GoStr

/-- Row-scanning loop of `getDatabaseList` (lines 37-43): the first scan
error aborts with that error; otherwise all row values are collected in
order. -/
def scanRows : List (Except GoStr GoStr) → Except GoStr (List GoStr)
  | [] => Except.ok []
  | Except.error e :: _ =>
    Except.error ("failed to scan database name: ".data ++ e)
  | Except.ok name :: rest =>
    match scanRows rest with
    | Except.error e => Except.error e
    | Except.ok names => Except.ok (name :: names)

/-- Enumerator `getDatabaseList` (src/unnamed/part_000 lines 20-46).  The
Go function never calls `rows.Err()` after the `rows.Next()` loop, so this
embedding never consults `c.itErr`: a row stream that failed mid-iteration
is indistinguishable from one that ended normally, and the delivered-rows
result is returned with a nil error. -/
def getDatabaseList (c : Catalog) : Except GoStr (List GoStr) :=
  match c.openErr with
  | some e => Except.error ("failed to connect to PostgreSQL: ".data ++ e)
  | none =>
    match c.queryErr with
    | some e => Except.error ("failed to query databases: ".data ++ e)
    | none => scanRows c.rows

/-- Oracle world for one backup run: the catalog outcome, `os.TempDir()`,
the Unix epoch seconds at process start, and per-database outcomes of
`time.Now()` at dump time, of the `pg_dump` subprocess, and of the S3
upload. -/
structure BackupWorld where
  catalog : Catalog
  tmpDir : GoStr
  epoch : Nat
  dumpTime : GoStr → GoTime
  dumpOk : GoStr → Bool
  uploadOk : GoStr → Bool

/-- Local artifact path `filepath.Join(os.TempDir(), backupFilename)`
(src/unnamed/part_000 line 54), for a clean temp directory and a
separator-free filename. -/
def dumpPath (w : BackupWorld) (db : GoStr) : GoStr :=
  w.tmpDir ++ '/' :: backupFilename db (w.dumpTime db)

/-- Dump Executor `backupDatabase` (src/unnamed/part_000 lines 48-66):
returns the artifact path when `pg_dump` succeeds, an error otherwise. -/
def backupDatabase (w : BackupWorld) (db : GoStr) : Except GoStr GoStr :=
  if w.dumpOk db then Except.ok (dumpPath w db)
  else Except.error "failed to backup database".data

/-- Object key computed by `uploadToS3` (src/unnamed/part_000 lines 88-89):
`fmt.Sprintf("%s/%s", s3KeyPrefix, filepath.Base(backupFilePath))`. -/
def s3UploadKey (pref localPath : GoStr) : GoStr :=
  pref ++ '/' :: filepathBase localPath

/-- Observable events of a backup run, in program order.  `removed` is an
`os.Remove` performed by a deferred call when the run returns. -/
inductive BEvent where
  | dumpFailed (db : GoStr)
  | dumped (db path : GoStr)
  | uploadFailed (db : GoStr)
  | uploaded (db key : GoStr)
  | removed (path : GoStr)
deriving DecidableEq

/-- Per-database loop of `backupAllDatabasesToS3` (src/unnamed/part_000
lines 114-130): events in order, plus the paths registered by
`defer os.Remove` in registration order. -/
def backupLoop (w : BackupWorld) (pref : GoStr) :
    List GoStr → List BEvent × List GoStr
  | [] => ([], [])
  | db :: rest =>
    match backupDatabase w db with
    | Except.error _ =>
      let r := backupLoop w pref rest
      (BEvent.dumpFailed db :: r.1, r.2)
    | Except.ok path =>
      let upEv := if w.uploadOk db then BEvent.uploaded db (s3UploadKey pref path)
                  else BEvent.uploadFailed db
      let r := backupLoop w pref rest
      (BEvent.dumped db path :: upEv :: r.1, path :: r.2)

/-- Orchestrator `backupAllDatabasesToS3` (src/unnamed/part_000 lines
106-133): fatal abort on enumeration failure; otherwise the loop runs to
the end, the deferred removals fire last-in-first-out at return, and the
returned error is `nil`. -/
def backupAllDatabasesToS3 (w : BackupWorld) (pref : GoStr) :
    List BEvent × Option GoStr :=
  match getDatabaseList w.catalog with
  | Except.error e => ([], some e)
  | Except.ok dbs =>
    let r := backupLoop w pref dbs
    (r.1 ++ r.2.reverse.map BEvent.removed, none)

/-- Run prefix chosen by backup `main` (src/unnamed/part_000 line 142):
`fmt.Sprintf("%d", time.Now().Unix())`. -/
def backupRunPref (w : BackupWorld) : GoStr := natToChars w.epoch

/-- Backup `main` (src/unnamed/part_000 lines 135-149). -/
def backupMain (w : BackupWorld) : List BEvent × Option GoStr :=
  backupAllDatabasesToS3 w (backupRunPref w)

/-- Process exit status of backup `main`: `log.Fatalf` exits with status 1
on a non-nil error, otherwise the process exits 0. -/
def backupMainExit (w : BackupWorld) : Nat :=
  match (backupMain w).2 with
  | none => 0
  | some _ => 1

/-- Databases for which a dump was attempted, read off an event trace. -/
def dumpAttemptsOf : List BEvent → List GoStr
  | [] => []
  | BEvent.dumpFailed db :: r => db :: dumpAttemptsOf r
  | BEvent.dumped db _ :: r => db :: dumpAttemptsOf r
  | _ :: r => dumpAttemptsOf r

/-- Paths removed by cleanup, read off an event trace. -/
def removedPathsOf : List BEvent → List GoStr
  | [] => []
  | BEvent.removed p :: r => p :: removedPathsOf r
  | _ :: r => removedPathsOf r

/-- Local paths of the databases whose dump succeeded, in loop order. -/
def successfulDumpPaths (w : BackupWorld) (dbs : List GoStr) : List GoStr :=
  dbs.filterMap (fun db => if w.dumpOk db then some (dumpPath w db) else none)

/-- Outcome oracle for the object store as seen by the restore run: whether
the single `ListObjectsV2` call fails, the bucket's keys in listing order,
and the size of the one response page the service returns. -/
structure S3State where
  listErr : Option GoStr
  keys : List GoStr
  pageSize : Nat

/-- Transfer `listS3BackupFiles` (src/restore/main.go lines 17-42): one
`ListObjectsV2` call with the given prefix filter and no pagination loop,
so at most one page of matching keys is returned. -/
def listS3BackupFiles (s : S3State) (pref : GoStr) : Except GoStr (List GoStr) :=
  match s.listErr with
  | some e => Except.error ("failed to list objects in S3 bucket: ".data ++ e)
  | none =>
    Except.ok ((s.keys.filter (fun k => pref.isPrefixOf k)).take s.pageSize)

/-- Oracle world for one restore run: the object store outcome,
`os.TempDir()`, and per-key outcomes of the S3 download and of the
`pg_restore` subprocess. -/
structure RestoreWorld where
  s3 : S3State
  tmpDir : GoStr
  downloadOk : GoStr → Bool
  restoreOk : GoStr → Bool

/-- Local download path `filepath.Join(os.TempDir(), filepath.Base(s3Key))`
(src/restore/main.go lines 103-104). -/
def restorePath (v : RestoreWorld) (key : GoStr) : GoStr :=
  v.tmpDir ++ '/' :: filepathBase key

/-- Observable events of a restore run, in program order. -/
inductive REvent where
  | downloadFailed (key : GoStr)
  | downloaded (key path : GoStr)
  | restoreFailed (db : GoStr)
  | restored (db : GoStr)
  | removed (path : GoStr)
deriving DecidableEq

/-- Per-key loop of `restoreAllDatabasesFromS3` (src/restore/main.go lines
99-117): events in order, paths registered by `defer os.Remove`, and
whether the decode slice panicked (which stops the loop; defers registered
so far still run during unwinding). -/
def restoreLoop (v : RestoreWorld) : List GoStr → List REvent × List GoStr × Bool
  | [] => ([], [], false)
  | key :: rest =>
    if v.downloadOk key then
      let path := restorePath v key
      match decodeDbName (filepathBase key) with
      | none => ([REvent.downloaded key path], [path], true)
      | some db =>
        let ev := if v.restoreOk key then REvent.restored db
                  else REvent.restoreFailed db
        let r := restoreLoop v rest
        (REvent.downloaded key path :: ev :: r.1, path :: r.2.1, r.2.2)
    else
      let r := restoreLoop v rest
      (REvent.downloadFailed key :: r.1, r.2.1, r.2.2)

/-- How a run's process terminates: normal return with a `nil` error,
normal return with an error (`log.Fatalf`, exit status 1), or a runtime
panic (exit status 2). -/
inductive RunOutcome where
  | ok
  | fatal (e : GoStr)
  | panicked
deriving DecidableEq

/-- Orchestrator `restoreAllDatabasesFromS3` (src/restore/main.go lines
91-120): fatal abort on listing failure; otherwise the loop runs (to the
end, or up to a decode panic) and the deferred removals fire
last-in-first-out on the way out, on both exit paths. -/
def restoreAllDatabasesFromS3 (v : RestoreWorld) (pref : GoStr) :
    List REvent × RunOutcome :=
  match listS3BackupFiles v.s3 pref with
  | Except.error e => ([], RunOutcome.fatal e)
  | Except.ok keys =>
    let r := restoreLoop v keys
    (r.1 ++ r.2.1.reverse.map REvent.removed,
     if r.2.2 then RunOutcome.panicked else RunOutcome.ok)

/-- Restore `main` (src/restore/main.go lines 122-136): the prefix comes
from `os.Getenv("S3_DIR")`, whose value is the argument here (the empty
string when the variable is unset). -/
def restoreMain (v : RestoreWorld) (envS3Dir : GoStr) : List REvent × RunOutcome :=
  restoreAllDatabasesFromS3 v envS3Dir

/-- Process exit status of restore `main`. -/
def restoreMainExit (v : RestoreWorld) (envS3Dir : GoStr) : Nat :=
  match (restoreMain v envS3Dir).2 with
  | RunOutcome.ok => 0
  | RunOutcome.fatal _ => 1
  | RunOutcome.panicked => 2

/-- Keys for which a download was attempted, read off a restore trace. -/
def downloadAttemptsOf : List REvent → List GoStr
  | [] => []
  | REvent.downloadFailed k :: r => k :: downloadAttemptsOf r
  | REvent.downloaded k _ :: r => k :: downloadAttemptsOf r
  | _ :: r => downloadAttemptsOf r

/-- Paths removed by cleanup, read off a restore trace. -/
def rRemovedPathsOf : List REvent → List GoStr
  | [] => []
  | REvent.removed p :: r => p :: rRemovedPathsOf r
  | _ :: r => rRemovedPathsOf r

/-- Local paths of the keys whose download succeeded, in loop order. -/
def successfulDownloadPaths (v : RestoreWorld) (keys : List GoStr) : List GoStr :=
  keys.filterMap (fun k => if v.downloadOk k then some (restorePath v k) else none)

/-- Command-line arguments passed to `pg_restore` by `restoreDatabase`
(src/restore/main.go line 79); `-c` is the clean flag. -/
def restoreCmdArgs (dbHost : GoStr) (dbPort : Nat) (dbUser dbName path : GoStr) :
    List GoStr :=
  ["-h".data, dbHost, "-p".data, natToChars dbPort, "-U".data, dbUser,
   "-d".data, dbName, "-c".data, "-F".data, "c".data, path]

/-- Modelled from the spec: the external restore tool (an external
collaborator, not part of src/) invoked with the clean flag first drops the
objects named by the archive and then recreates them from the archive, so
the final state maps every object of the archive to the archive's content
and leaves other objects of the target database untouched.  Database state
is a map from object name to content. -/
def applyCleanRestore (archive db : GoStr → Option GoStr) : GoStr → Option GoStr :=
  fun obj =>
    match archive obj with
    | some v => some v
    | none => db obj

def sampleTime : GoTime := ⟨2023, 11, 14, 12, 0, 0⟩

def sampleCatalog : Catalog :=
  { openErr := none
    queryErr := none
    rows := [Except.ok "admindb".data, Except.ok "agentdb".data,
             Except.ok "userdb".data]
    itErr := none }

/-- Concrete backup world: three databases, the dump of `admindb` fails,
everything else succeeds. -/
def sampleBackupWorld : BackupWorld :=
  { catalog := sampleCatalog
    tmpDir := "/tmp".data
    epoch := 1700000000
    dumpTime := fun _ => sampleTime
    dumpOk := fun d => !(d == "admindb".data)
    uploadOk := fun _ => true }

/-- Concrete backup world whose catalog connection fails. -/
def sampleOpenFailWorld : BackupWorld :=
  { catalog := { openErr := some "nohost".data, queryErr := none, rows := [],
                 itErr := none }
    tmpDir := "/tmp".data
    epoch := 1700000000
    dumpTime := fun _ => sampleTime
    dumpOk := fun _ => true
    uploadOk := fun _ => true }

/-- Concrete backup world whose second catalog row fails to scan. -/
def sampleScanFailCatalog : Catalog :=
  { openErr := none
    queryErr := none
    rows := [Except.ok "admindb".data, Except.error "broken".data]
    itErr := none }

/-- Concrete catalog whose connection drops after one of two databases was
delivered: the row stream ends with a connectivity error that only
`rows.Err()` would report. -/
def sampleMidFailCatalog : Catalog :=
  { openErr := none
    queryErr := none
    rows := [Except.ok "admindb".data]
    itErr := some "connection reset by peer".data }

/-- Concrete backup world built on `sampleMidFailCatalog`. -/
def sampleMidFailWorld : BackupWorld :=
  { catalog := sampleMidFailCatalog
    tmpDir := "/tmp".data
    epoch := 1700000000
    dumpTime := fun _ => sampleTime
    dumpOk := fun _ => true
    uploadOk := fun _ => true }

def sampleS3 : S3State :=
  { listErr := none
    keys := ["1700000000/admindb_backup_20231114_120000.sql".data,
             "1700000000/agentdb_backup_20231114_120000.sql".data]
    pageSize := 1000 }

/-- Concrete object store whose single response page holds one key while
two keys match. -/
def samplePagedS3 : S3State :=
  { listErr := none
    keys := sampleS3.keys
    pageSize := 1 }

/-- Concrete restore world: two keys, both downloads succeed, the restore
of the first database fails. -/
def sampleRestoreWorld : RestoreWorld :=
  { s3 := sampleS3
    tmpDir := "/tmp".data
    downloadOk := fun _ => true
    restoreOk := fun k =>
      !(k == "1700000000/admindb_backup_20231114_120000.sql".data) }

lemma natToCharsAux_fuel_irrel (f1 : Nat) :
    ∀ f2 n, n < f1 → n < f2 → natToCharsAux f1 n = natToCharsAux f2 n := by
  induction f1 with
  | zero => intro f2 n h1 _; omega
  | succ f1 ih =>
    intro f2 n h1 h2
    cases f2 with
    | zero => omega
    | succ f2 =>
      simp only [natToCharsAux]
      split
      · rfl
      · rw [ih f2 (n / 10) (by omega) (by omega)]

lemma natToChars_eq (n : Nat) :
    natToChars n =
      if n < 10 then [digitChar n]
      else natToChars (n / 10) ++ [digitChar (n % 10)] := by
  show natToCharsAux (n + 1) n = _
  rw [show natToCharsAux (n + 1) n =
    if n < 10 then [digitChar n]
    else natToCharsAux n (n / 10) ++ [digitChar (n % 10)] from rfl]
  split
  · rfl
  · rw [natToCharsAux_fuel_irrel n (n / 10 + 1) (n / 10) (by omega)
      (by omega)]
    rfl

lemma natToChars_length_le (k : Nat) :
    ∀ n : Nat, 1 ≤ k → n < 10 ^ k → (natToChars n).length ≤ k := by
  induction k with
  | zero => intro n h1 _; omega
  | succ k ih =>
    intro n _ h2
    rw [natToChars_eq]
    split
    · simp
    · rename_i hge
      have hk : 1 ≤ k := by
        by_contra hc
        have : k = 0 := by omega
        subst this
        simp at h2
        omega
      have hdiv : n / 10 < 10 ^ k :=
        Nat.div_lt_of_lt_mul (by rw [← pow_succ']; exact h2)
      have := ih (n / 10) hk hdiv
      simp only [List.length_append, List.length_cons, List.length_nil]
      omega

lemma natToChars_length_le_four (n : Nat) (h : n < 10000) :
    (natToChars n).length ≤ 4 :=
  natToChars_length_le 4 n (by omega) (by norm_num; omega)

lemma natToChars_length_le_two (n : Nat) (h : n < 100) :
    (natToChars n).length ≤ 2 :=
  natToChars_length_le 2 n (by omega) (by norm_num; omega)

lemma padNum_length (w n : Nat) (h : (natToChars n).length ≤ w) :
    (padNum w n).length = w := by
  simp [padNum]
  omega

lemma formatTimestamp_length (t : GoTime) (ht : t.Valid) :
    (formatTimestamp t).length = 15 := by
  obtain ⟨h1, h2, h3, h4, h5, h6⟩ := ht
  simp [formatTimestamp,
    padNum_length 4 t.year (natToChars_length_le_four _ h1),
    padNum_length 2 t.month (natToChars_length_le_two _ h2),
    padNum_length 2 t.day (natToChars_length_le_two _ h3),
    padNum_length 2 t.hour (natToChars_length_le_two _ h4),
    padNum_length 2 t.minute (natToChars_length_le_two _ h5),
    padNum_length 2 t.second (natToChars_length_le_two _ h6)]

lemma backupFilename_length (n : GoStr) (t : GoTime) (ht : t.Valid) :
    (backupFilename n t).length = n.length + 27 := by
  simp [backupFilename, formatTimestamp_length t ht]

lemma dropWhile_slash_append (l r : List Char) (hl : l ≠ [])
    (h : ∀ x ∈ l, x ≠ '/') : (l ++ r).dropWhile (· == '/') = l ++ r := by
  cases l with
  | nil => exact absurd rfl hl
  | cons a as =>
    have ha : (a == '/') = false := by
      simp only [beq_eq_false_iff_ne, ne_eq]
      exact h a (by simp)
    simp [List.dropWhile_cons, ha]

lemma takeWhile_ne_slash_append (l r : List Char) (h : ∀ x ∈ l, x ≠ '/') :
    (l ++ '/' :: r).takeWhile (· != '/') = l := by
  induction l with
  | nil => simp [List.takeWhile_cons]
  | cons a as ih =>
    have ha : (a != '/') = true := by
      simp only [bne_iff_ne, ne_eq]
      exact h a (by simp)
    simp only [List.cons_append, List.takeWhile_cons, ha, if_true]
    rw [ih (fun x hx => h x (by simp [hx]))]

lemma filepathBase_join (d f : GoStr) (hne : f ≠ []) (hf : '/' ∉ f) :
    filepathBase (d ++ '/' :: f) = f := by
  have hall : ∀ x ∈ f.reverse, x ≠ '/' := by
    intro x hx
    rw [List.mem_reverse] at hx
    exact fun hc => hf (hc ▸ hx)
  have hp : d ++ '/' :: f ≠ [] := by simp
  have hrev : (d ++ '/' :: f).reverse = f.reverse ++ '/' :: d.reverse := by
    simp
  have hdrop : ((d ++ '/' :: f).reverse).dropWhile (· == '/') =
      (d ++ '/' :: f).reverse := by
    rw [hrev]
    exact dropWhile_slash_append _ _ (by simpa using hne) hall
  unfold filepathBase
  rw [if_neg hp]
  simp only [hdrop, List.reverse_reverse]
  rw [if_neg (by simpa using hp)]
  rw [hrev]
  rw [takeWhile_ne_slash_append _ _ hall, List.reverse_reverse]

lemma backupLoop_deferred (w : BackupWorld) (pref : GoStr) (dbs : List GoStr) :
    (backupLoop w pref dbs).2 = successfulDumpPaths w dbs := by
  induction dbs with
  | nil => simp [backupLoop, successfulDumpPaths]
  | cons db rest ih =>
    cases h : w.dumpOk db <;>
      simp [backupLoop, backupDatabase, h, successfulDumpPaths,
        List.filterMap_cons, ih]

lemma backupLoop_dumpAttempts (w : BackupWorld) (pref : GoStr)
    (dbs : List GoStr) : dumpAttemptsOf (backupLoop w pref dbs).1 = dbs := by
  induction dbs with
  | nil => simp [backupLoop, dumpAttemptsOf]
  | cons db rest ih =>
    cases h : w.dumpOk db
    · simp [backupLoop, backupDatabase, h, dumpAttemptsOf, ih]
    · cases h2 : w.uploadOk db <;>
        simp [backupLoop, backupDatabase, h, h2, dumpAttemptsOf, ih]

lemma backupLoop_no_removed (w : BackupWorld) (pref : GoStr)
    (dbs : List GoStr) : removedPathsOf (backupLoop w pref dbs).1 = [] := by
  induction dbs with
  | nil => simp [backupLoop, removedPathsOf]
  | cons db rest ih =>
    cases h : w.dumpOk db
    · simp [backupLoop, backupDatabase, h, removedPathsOf, ih]
    · cases h2 : w.uploadOk db <;>
        simp [backupLoop, backupDatabase, h, h2, removedPathsOf, ih]

lemma backupLoop_uploaded_mem (w : BackupWorld) (pref : GoStr)
    (dbs : List GoStr) (db key : GoStr)
    (h : BEvent.uploaded db key ∈ (backupLoop w pref dbs).1) :
    db ∈ dbs ∧ w.dumpOk db = true ∧ w.uploadOk db = true ∧
      key = s3UploadKey pref (dumpPath w db) := by
  induction dbs with
  | nil => simp [backupLoop] at h
  | cons d rest ih =>
    cases hd : w.dumpOk d
    · simp only [backupLoop, backupDatabase, hd] at h
      simp at h
      obtain ⟨h1, h2, h3, h4⟩ := ih h
      exact ⟨List.mem_cons_of_mem _ h1, h2, h3, h4⟩
    · cases hu : w.uploadOk d
      · simp only [backupLoop, backupDatabase, hd, hu] at h
        simp at h
        obtain ⟨h1, h2, h3, h4⟩ := ih h
        exact ⟨List.mem_cons_of_mem _ h1, h2, h3, h4⟩
      · simp only [backupLoop, backupDatabase, hd, hu] at h
        simp at h
        rcases h with ⟨rfl, rfl⟩ | h
        · exact ⟨by simp, hd, hu, rfl⟩
        · obtain ⟨h1, h2, h3, h4⟩ := ih h
          exact ⟨List.mem_cons_of_mem _ h1, h2, h3, h4⟩

lemma decodeDbName_of_long (f : GoStr) (h : 27 ≤ f.length) :
    decodeDbName f = some (f.take (f.length - 27)) := by
  unfold decodeDbName goSliceTo
  rw [if_pos (by constructor <;> omega)]
  have ht : (((f.length : Int) - 27)).toNat = f.length - 27 := by omega
  rw [ht]

lemma restoreLoop_no_panic (v : RestoreWorld) (keys : List GoStr)
    (h : ∀ k ∈ keys, 27 ≤ (filepathBase k).length) :
    (restoreLoop v keys).2.2 = false ∧
      downloadAttemptsOf (restoreLoop v keys).1 = keys ∧
      (restoreLoop v keys).2.1 = successfulDownloadPaths v keys := by
  induction keys with
  | nil => simp [restoreLoop, downloadAttemptsOf, successfulDownloadPaths]
  | cons key rest ih =>
    obtain ⟨ih1, ih2, ih3⟩ := ih (fun k hk => h k (List.mem_cons_of_mem _ hk))
    have hdec := decodeDbName_of_long _ (h key (List.mem_cons_self _ _))
    cases hd : v.downloadOk key
    · simp only [restoreLoop, hd, Bool.false_eq_true, if_false]
      refine ⟨ih1, ?_, ?_⟩
      · simp [downloadAttemptsOf, ih2]
      · simp [successfulDownloadPaths, List.filterMap_cons, hd, ih3]
    · cases hr : v.restoreOk key <;>
        simp only [restoreLoop, hd, hr, hdec, if_true, Bool.false_eq_true,
          if_false] <;>
        refine ⟨ih1, by simp [downloadAttemptsOf, ih2],
          by simp [successfulDownloadPaths, List.filterMap_cons, hd, ih3]⟩

lemma rRemovedPathsOf_restoreLoop (v : RestoreWorld) (keys : List GoStr) :
    rRemovedPathsOf (restoreLoop v keys).1 = [] := by
  induction keys with
  | nil => simp [restoreLoop, rRemovedPathsOf]
  | cons key rest ih =>
    cases hd : v.downloadOk key
    · simp [restoreLoop, hd, rRemovedPathsOf, ih]
    · cases hdec : decodeDbName (filepathBase key)
      · simp [restoreLoop, hd, hdec, rRemovedPathsOf]
      · cases hr : v.restoreOk key <;>
          simp [restoreLoop, hd, hdec, hr, rRemovedPathsOf, ih]

lemma digitChar_ne_slash (n : Nat) : digitChar n ≠ '/' := by
  have h : n % 10 < 10 := Nat.mod_lt _ (by omega)
  unfold digitChar
  generalize n % 10 = m at h ⊢
  interval_cases m <;> decide

lemma mem_natToChars_ne_slash (n : Nat) : ∀ c ∈ natToChars n, c ≠ '/' := by
  induction n using Nat.strong_induction_on with
  | _ n ih =>
    intro c hc
    rw [natToChars_eq] at hc
    split at hc
    · simp at hc
      subst hc
      exact digitChar_ne_slash n
    · rw [List.mem_append] at hc
      rcases hc with hc | hc
      · exact ih (n / 10) (Nat.div_lt_self (by omega) (by omega)) c hc
      · simp at hc
        subst hc
        exact digitChar_ne_slash _

lemma mem_padNum_ne_slash (w n : Nat) : ∀ c ∈ padNum w n, c ≠ '/' := by
  intro c hc
  unfold padNum at hc
  rw [List.mem_append] at hc
  rcases hc with hc | hc
  · rw [List.mem_replicate] at hc
    rw [hc.2]
    decide
  · exact mem_natToChars_ne_slash n c hc

lemma mem_formatTimestamp_ne_slash (t : GoTime) :
    ∀ c ∈ formatTimestamp t, c ≠ '/' := by
  intro c hc
  unfold formatTimestamp at hc
  simp only [List.mem_append, List.mem_singleton] at hc
  rcases hc with ((((((hc | hc) | hc) | hc) | hc) | hc) | hc)
  · exact mem_padNum_ne_slash 4 t.year c hc
  · exact mem_padNum_ne_slash 2 t.month c hc
  · exact mem_padNum_ne_slash 2 t.day c hc
  · subst hc; decide
  · exact mem_padNum_ne_slash 2 t.hour c hc
  · exact mem_padNum_ne_slash 2 t.minute c hc
  · exact mem_padNum_ne_slash 2 t.second c hc

lemma slash_not_mem_backupFilename (db : GoStr) (t : GoTime) (h : '/' ∉ db) :
    '/' ∉ backupFilename db t := by
  intro hc
  unfold backupFilename at hc
  simp only [List.mem_append] at hc
  rcases hc with ((hc | hc) | hc) | hc
  · exact h hc
  · revert hc; decide
  · exact mem_formatTimestamp_ne_slash t '/' hc rfl
  · revert hc; decide

lemma backupFilename_ne_nil (db : GoStr) (t : GoTime) :
    backupFilename db t ≠ [] := by
  intro h
  rcases List.append_eq_nil.mp h with ⟨-, h2⟩
  exact (by decide : (".sql".data : List Char) ≠ []) h2

lemma backupFilename_inj (n1 n2 : GoStr) (t1 t2 : GoTime)
    (h1 : t1.Valid) (h2 : t2.Valid)
    (heq : backupFilename n1 t1 = backupFilename n2 t2) : n1 = n2 := by
  have hlen : n1.length = n2.length := by
    have hl := congrArg List.length heq
    rw [backupFilename_length n1 t1 h1, backupFilename_length n2 t2 h2] at hl
    omega
  have heq2 :
      n1 ++ ("_backup_".data ++ formatTimestamp t1 ++ ".sql".data) =
        n2 ++ ("_backup_".data ++ formatTimestamp t2 ++ ".sql".data) := by
    simpa [backupFilename, List.append_assoc] using heq
  exact (List.append_inj heq2 hlen).1

lemma dumpPath_inj (w : BackupWorld) (d1 d2 : GoStr)
    (h1 : (w.dumpTime d1).Valid) (h2 : (w.dumpTime d2).Valid)
    (heq : dumpPath w d1 = dumpPath w d2) : d1 = d2 := by
  unfold dumpPath at heq
  have hx := List.append_cancel_left heq
  injection hx with _ hy
  exact backupFilename_inj _ _ _ _ h1 h2 hy

lemma removedPathsOf_append (a b : List BEvent) :
    removedPathsOf (a ++ b) = removedPathsOf a ++ removedPathsOf b := by
  induction a with
  | nil => simp [removedPathsOf]
  | cons e r ih => cases e <;> simp [removedPathsOf, ih]

lemma removedPathsOf_map_removed (l : List GoStr) :
    removedPathsOf (l.map BEvent.removed) = l := by
  induction l with
  | nil => simp [removedPathsOf]
  | cons p r ih => simp [removedPathsOf, ih]

lemma dumpAttemptsOf_append (a b : List BEvent) :
    dumpAttemptsOf (a ++ b) = dumpAttemptsOf a ++ dumpAttemptsOf b := by
  induction a with
  | nil => simp [dumpAttemptsOf]
  | cons e r ih => cases e <;> simp [dumpAttemptsOf, ih]

lemma dumpAttemptsOf_map_removed (l : List GoStr) :
    dumpAttemptsOf (l.map BEvent.removed) = [] := by
  induction l with
  | nil => simp [dumpAttemptsOf]
  | cons p r ih => simp [dumpAttemptsOf, ih]

lemma downloadAttemptsOf_append (a b : List REvent) :
    downloadAttemptsOf (a ++ b) =
      downloadAttemptsOf a ++ downloadAttemptsOf b := by
  induction a with
  | nil => simp [downloadAttemptsOf]
  | cons e r ih => cases e <;> simp [downloadAttemptsOf, ih]

lemma downloadAttemptsOf_map_removed (l : List GoStr) :
    downloadAttemptsOf (l.map REvent.removed) = [] := by
  induction l with
  | nil => simp [downloadAttemptsOf]
  | cons p r ih => simp [downloadAttemptsOf, ih]

lemma dumpAttemptsOf_reverse_map_removed (l : List GoStr) :
    dumpAttemptsOf (l.map BEvent.removed).reverse = [] := by
  rw [← List.map_reverse]
  exact dumpAttemptsOf_map_removed _

lemma removedPathsOf_reverse_map_removed (l : List GoStr) :
    removedPathsOf (l.map BEvent.removed).reverse = l.reverse := by
  rw [← List.map_reverse]
  exact removedPathsOf_map_removed _

lemma downloadAttemptsOf_reverse_map_removed (l : List GoStr) :
    downloadAttemptsOf (l.map REvent.removed).reverse = [] := by
  rw [← List.map_reverse]
  exact downloadAttemptsOf_map_removed _

lemma scanRows_ok (rows : List (Except GoStr GoStr)) (l : List GoStr)
    (h : scanRows rows = Except.ok l) : rows = l.map Except.ok := by
  induction rows generalizing l with
  | nil =>
    simp only [scanRows, Except.ok.injEq] at h
    subst h
    simp
  | cons row rest ih =>
    cases row with
    | error e => simp [scanRows] at h
    | ok name =>
      simp only [scanRows] at h
      cases hr : scanRows rest with
      | error e =>
        rw [hr] at h
        exact Except.noConfusion h
      | ok names =>
        rw [hr] at h
        injection h with h
        subst h
        simp [ih names hr]

lemma scanRows_error_of_mem (rows : List (Except GoStr GoStr)) (err : GoStr)
    (h : Except.error err ∈ rows) : ∃ e, scanRows rows = Except.error e := by
  induction rows with
  | nil => simp at h
  | cons row rest ih =>
    cases row with
    | error e =>
      exact ⟨"failed to scan database name: ".data ++ e, by simp [scanRows]⟩
    | ok name =>
      have hmem : Except.error err ∈ rest := by
        rcases List.mem_cons.mp h with hcontra | hmem
        · exact Except.noConfusion hcontra
        · exact hmem
      obtain ⟨e, he⟩ := ih hmem
      refine ⟨e, ?_⟩
      simp only [scanRows, he]

/-- C1: Round-trip of the Artifact Namer — for every database name `n` not
containing the literal suffix pattern and every timestamp `t`, stripping the
trailing 27 characters from `<n>_backup_<YYYYMMDD_HHMMSS>.sql` returns
exactly `n`. -/
theorem decode_encode_roundtrip (n : GoStr) (t : GoTime)
    (_hn : containsBackupMarker n = false) (ht : t.Valid) :
    decodeDbName (backupFilename n t) = some n := by
  unfold decodeDbName goSliceTo
  rw [backupFilename_length n t ht]
  rw [if_pos (by constructor <;> omega)]
  congr 1
  have htn : ((((n.length : Int) + 27) - 27)).toNat = n.length := by omega
  push_cast
  rw [htn]
  unfold backupFilename
  rw [List.append_assoc, List.append_assoc, List.take_left]

/-- C1 witness: the round-trip at a concrete name and timestamp. -/
theorem decode_encode_roundtrip_witness :
    decodeDbName (backupFilename "admindb".data ⟨2023, 11, 14, 12, 0, 0⟩) =
      some "admindb".data :=
  decode_encode_roundtrip "admindb".data ⟨2023, 11, 14, 12, 0, 0⟩
    (by decide) (by decide)

/-- C2: Per-item failure isolation — in both the backup loop and the
restore loop, a failed dump, upload, download or restore is confined to its
item: the loop still attempts every database/key, the run's returned error
is nil, and the process exits 0.  The per-item outcome oracles are
universally quantified, so this holds whatever subset of items fails. -/
theorem per_item_failure_isolation :
    (∀ (w : BackupWorld) (pref : GoStr) (dbs : List GoStr),
      getDatabaseList w.catalog = Except.ok dbs →
      (backupAllDatabasesToS3 w pref).2 = none ∧
      backupMainExit w = 0 ∧
      dumpAttemptsOf (backupAllDatabasesToS3 w pref).1 = dbs) ∧
    (∀ (v : RestoreWorld) (pref : GoStr) (keys : List GoStr),
      listS3BackupFiles v.s3 pref = Except.ok keys →
      (∀ k ∈ keys, 27 ≤ (filepathBase k).length) →
      (restoreAllDatabasesFromS3 v pref).2 = RunOutcome.ok ∧
      restoreMainExit v pref = 0 ∧
      downloadAttemptsOf (restoreAllDatabasesFromS3 v pref).1 = keys) := by
  constructor
  · intro w pref dbs h
    refine ⟨?_, ?_, ?_⟩
    · simp [backupAllDatabasesToS3, h]
    · simp [backupMainExit, backupMain, backupAllDatabasesToS3, h]
    · simp [backupAllDatabasesToS3, h, dumpAttemptsOf_append,
        dumpAttemptsOf_reverse_map_removed, backupLoop_dumpAttempts]
  · intro v pref keys h hdec
    obtain ⟨h1, h2, h3⟩ := restoreLoop_no_panic v keys hdec
    refine ⟨?_, ?_, ?_⟩
    · simp [restoreAllDatabasesFromS3, h, h1]
    · simp [restoreMainExit, restoreMain, restoreAllDatabasesFromS3, h, h1]
    · simp [restoreAllDatabasesFromS3, h, downloadAttemptsOf_append,
        downloadAttemptsOf_reverse_map_removed, h2]

/-- C2 witness: with the dump of `admindb` failing, every database is still
attempted and the run exits 0. -/
theorem per_item_failure_isolation_witness :
    (backupAllDatabasesToS3 sampleBackupWorld "1700000000".data).2 = none ∧
    backupMainExit sampleBackupWorld = 0 ∧
    dumpAttemptsOf
        (backupAllDatabasesToS3 sampleBackupWorld "1700000000".data).1 =
      ["admindb".data, "agentdb".data, "userdb".data] :=
  per_item_failure_isolation.1 sampleBackupWorld "1700000000".data
    ["admindb".data, "agentdb".data, "userdb".data] (by rfl)

/-- C4: Persisted key layout — every uploaded object's key is the run's
key prefix (the epoch seconds of process start), then `/`, then the
basename of the local file, i.e. `<epoch>/<db>_backup_<YYYYMMDD_HHMMSS>.sql`. -/
theorem upload_key_layout (w : BackupWorld) (dbs : List GoStr) (db key : GoStr)
    (henum : getDatabaseList w.catalog = Except.ok dbs)
    (hslash : '/' ∉ db)
    (hmem : BEvent.uploaded db key ∈ (backupMain w).1) :
    key = natToChars w.epoch ++ '/' :: backupFilename db (w.dumpTime db) := by
  unfold backupMain at hmem
  simp only [backupAllDatabasesToS3, henum] at hmem
  rw [List.mem_append] at hmem
  rcases hmem with hmem | hmem
  · obtain ⟨-, -, -, hkey⟩ := backupLoop_uploaded_mem _ _ _ _ _ hmem
    rw [hkey]
    unfold s3UploadKey dumpPath backupRunPref
    rw [filepathBase_join _ _ (backupFilename_ne_nil _ _)
      (slash_not_mem_backupFilename _ _ hslash)]
  · exfalso
    rcases List.mem_map.mp hmem with ⟨p, -, hp⟩
    exact BEvent.noConfusion hp

/-- C4 witness: the key persisted for `agentdb` in the concrete run. -/
theorem upload_key_layout_witness :
    "1700000000/agentdb_backup_20231114_120000.sql".data =
      natToChars sampleBackupWorld.epoch ++ '/' ::
        backupFilename "agentdb".data
          (sampleBackupWorld.dumpTime "agentdb".data) :=
  upload_key_layout sampleBackupWorld
    ["admindb".data, "agentdb".data, "userdb".data] "agentdb".data
    "1700000000/agentdb_backup_20231114_120000.sql".data
    (by rfl) (by decide) (by decide)

lemma scanRows_map_ok (l : List GoStr) :
    scanRows (l.map Except.ok) = Except.ok l := by
  induction l with
  | nil => rfl
  | cons a rest ih => simp only [List.map_cons, scanRows, ih]

/-- C5 counterexample: a connectivity error that ends the row stream after
one database was delivered (`itErr` set, the value `rows.Err()` would
report) is never observed by `getDatabaseList`, which returns the partial
one-database list with a nil error; the run acts on that list and the
process exits 0 — refuting, at this concrete input, that any connectivity
error during enumeration aborts the run with nonzero exit and that no
partial list is ever returned or acted upon. -/
theorem enumeration_mid_error_counterexample :
    sampleMidFailCatalog.itErr = some "connection reset by peer".data ∧
    getDatabaseList sampleMidFailCatalog = Except.ok ["admindb".data] ∧
    backupMainExit sampleMidFailWorld = 0 ∧
    dumpAttemptsOf (backupMain sampleMidFailWorld).1 = ["admindb".data] := by
  refine ⟨rfl, rfl, by decide, by decide⟩

/-- C5 amended: enumeration is fatal on every error the code surfaces —
a connection-open error, a query error, or a row-scan error (even partway
through the rows) aborts the whole run with exit status 1 and an empty
trace, and a successful enumeration returns exactly the delivered rows;
however a connectivity error that ends the row stream mid-iteration is
silently swallowed (`rows.Err()` is never checked): enumeration then
returns the partially delivered list with a nil error, whatever `itErr`
is, and the run acts on it. -/
theorem enumeration_fatal_amended :
    (∀ (w : BackupWorld) (e : GoStr),
      getDatabaseList w.catalog = Except.error e →
      backupMain w = ([], some e) ∧ backupMainExit w = 1) ∧
    (∀ (c : Catalog) (l : List GoStr),
      getDatabaseList c = Except.ok l → c.rows = l.map Except.ok) ∧
    (∀ (c : Catalog) (err : GoStr), Except.error err ∈ c.rows →
      ∃ e, getDatabaseList c = Except.error e) ∧
    (∀ (c : Catalog) (l : List GoStr), c.openErr = none → c.queryErr = none →
      c.rows = l.map Except.ok → getDatabaseList c = Except.ok l) := by
  refine ⟨?_, ?_, ?_, ?_⟩
  · intro w e h
    constructor
    · simp [backupMain, backupAllDatabasesToS3, h]
    · simp [backupMainExit, backupMain, backupAllDatabasesToS3, h]
  · intro c l h
    unfold getDatabaseList at h
    cases ho : c.openErr with
    | some e => rw [ho] at h; exact Except.noConfusion h
    | none =>
      rw [ho] at h
      cases hq : c.queryErr with
      | some e => rw [hq] at h; exact Except.noConfusion h
      | none => rw [hq] at h; exact scanRows_ok _ _ h
  · intro c err hmem
    cases ho : c.openErr with
    | some e =>
      exact ⟨"failed to connect to PostgreSQL: ".data ++ e,
        by simp [getDatabaseList, ho]⟩
    | none =>
      cases hq : c.queryErr with
      | some e =>
        exact ⟨"failed to query databases: ".data ++ e,
          by simp [getDatabaseList, ho, hq]⟩
      | none =>
        obtain ⟨e, he⟩ := scanRows_error_of_mem _ _ hmem
        exact ⟨e, by simp [getDatabaseList, ho, hq, he]⟩
  · intro c l ho hq hr
    simp [getDatabaseList, ho, hq, hr, scanRows_map_ok]

/-- C5 witness: the surfaced connection-open failure aborts the concrete
run with exit 1 and no per-database work, while the mid-iteration stream
failure is swallowed and the partial list is returned with a nil error. -/
theorem enumeration_fatal_amended_witness :
    (backupMain sampleOpenFailWorld =
      ([], some "failed to connect to PostgreSQL: nohost".data) ∧
     backupMainExit sampleOpenFailWorld = 1) ∧
    getDatabaseList sampleMidFailCatalog = Except.ok ["admindb".data] :=
  ⟨enumeration_fatal_amended.1 sampleOpenFailWorld
      "failed to connect to PostgreSQL: nohost".data (by rfl),
   enumeration_fatal_amended.2.2.2 sampleMidFailCatalog ["admindb".data]
      rfl rfl rfl⟩

/-- C6: The restore-side list operation is a single listing call with no
pagination loop: it succeeds with exactly the one response page, so when
more keys match the prefix than fit the page, the result is a silently
incomplete key set, not an error. -/
theorem single_page_listing (s : S3State) (pref : GoStr)
    (hok : s.listErr = none)
    (hover : s.pageSize <
      (s.keys.filter (fun k => pref.isPrefixOf k)).length) :
    listS3BackupFiles s pref =
      Except.ok ((s.keys.filter (fun k => pref.isPrefixOf k)).take s.pageSize) ∧
    ((s.keys.filter (fun k => pref.isPrefixOf k)).take s.pageSize).length =
      s.pageSize ∧
    ((s.keys.filter (fun k => pref.isPrefixOf k)).take s.pageSize).length <
      (s.keys.filter (fun k => pref.isPrefixOf k)).length := by
  refine ⟨by simp [listS3BackupFiles, hok], ?_, ?_⟩
  · rw [List.length_take]; omega
  · rw [List.length_take]; omega

/-- C6 witness: a one-key page over a bucket with two matching keys
returns one key and no error. -/
theorem single_page_listing_witness :
    listS3BackupFiles samplePagedS3 "1700000000".data =
      Except.ok ((samplePagedS3.keys.filter
        (fun k => "1700000000".data.isPrefixOf k)).take samplePagedS3.pageSize) ∧
    ((samplePagedS3.keys.filter
        (fun k => "1700000000".data.isPrefixOf k)).take
      samplePagedS3.pageSize).length = samplePagedS3.pageSize ∧
    ((samplePagedS3.keys.filter
        (fun k => "1700000000".data.isPrefixOf k)).take
      samplePagedS3.pageSize).length <
      (samplePagedS3.keys.filter
        (fun k => "1700000000".data.isPrefixOf k)).length :=
  single_page_listing samplePagedS3 "1700000000".data (by rfl) (by decide)

/-- C7: End-of-run deferred cleanup — the run's trace is the per-item loop
events followed by the removals: no removal happens inside the loop, every
successfully dumped (resp. downloaded) artifact's path is removed when the
run completes, later per-item failures notwithstanding, and on the restore
side this trace shape holds on every exit path, the decode-panic path
included. -/
theorem end_of_run_deferred_cleanup :
    (∀ (w : BackupWorld) (pref : GoStr) (dbs : List GoStr),
      getDatabaseList w.catalog = Except.ok dbs →
      (backupAllDatabasesToS3 w pref).1 =
        (backupLoop w pref dbs).1 ++
          (successfulDumpPaths w dbs).reverse.map BEvent.removed ∧
      removedPathsOf (backupLoop w pref dbs).1 = []) ∧
    (∀ (v : RestoreWorld) (pref : GoStr) (keys : List GoStr),
      listS3BackupFiles v.s3 pref = Except.ok keys →
      (restoreAllDatabasesFromS3 v pref).1 =
        (restoreLoop v keys).1 ++
          (restoreLoop v keys).2.1.reverse.map REvent.removed ∧
      rRemovedPathsOf (restoreLoop v keys).1 = []) ∧
    (∀ (v : RestoreWorld) (keys : List GoStr),
      (∀ k ∈ keys, 27 ≤ (filepathBase k).length) →
      (restoreLoop v keys).2.1 = successfulDownloadPaths v keys) := by
  refine ⟨?_, ?_, ?_⟩
  · intro w pref dbs h
    constructor
    · simp [backupAllDatabasesToS3, h, backupLoop_deferred]
    · exact backupLoop_no_removed w pref dbs
  · intro v pref keys h
    constructor
    · simp [restoreAllDatabasesFromS3, h]
    · exact rRemovedPathsOf_restoreLoop v keys
  · intro v keys hdec
    exact (restoreLoop_no_panic v keys hdec).2.2

/-- C7 witness: the concrete backup run's trace is the loop events followed
by the removals of the two successfully dumped artifacts. -/
theorem end_of_run_deferred_cleanup_witness :
    (backupAllDatabasesToS3 sampleBackupWorld "1700000000".data).1 =
      (backupLoop sampleBackupWorld "1700000000".data
          ["admindb".data, "agentdb".data, "userdb".data]).1 ++
        (successfulDumpPaths sampleBackupWorld
          ["admindb".data, "agentdb".data, "userdb".data]).reverse.map
            BEvent.removed ∧
    removedPathsOf (backupLoop sampleBackupWorld "1700000000".data
      ["admindb".data, "agentdb".data, "userdb".data]).1 = [] :=
  end_of_run_deferred_cleanup.1 sampleBackupWorld "1700000000".data
    ["admindb".data, "agentdb".data, "userdb".data] (by rfl)

/-- C8: Restore idempotence — the restore executor always passes the clean
flag `-c` to the external restore tool, and under the clean-restore
semantics restoring the same archive twice against the same target
database yields the same final database state both times. -/
theorem clean_restore_idempotent :
    (∀ (dbHost : GoStr) (dbPort : Nat) (dbUser dbName path : GoStr),
      "-c".data ∈ restoreCmdArgs dbHost dbPort dbUser dbName path) ∧
    (∀ (archive st : GoStr → Option GoStr),
      applyCleanRestore archive (applyCleanRestore archive st) =
        applyCleanRestore archive st) := by
  constructor
  · intro dbHost dbPort dbUser dbName path
    simp [restoreCmdArgs]
  · intro archive st
    funext obj
    unfold applyCleanRestore
    cases archive obj <;> simp

/-- C9: When the dump of a database fails, no removal is scheduled for its
output path — cleanup removes exactly the successfully dumped artifact
paths and nothing else, so a partial file left at a failed dump's path
survives the run. -/
theorem failed_dump_not_cleaned (w : BackupWorld) (pref : GoStr)
    (dbs : List GoStr) (db : GoStr)
    (henum : getDatabaseList w.catalog = Except.ok dbs)
    (hv : ∀ d ∈ dbs, (w.dumpTime d).Valid)
    (hdb : db ∈ dbs) (hfail : w.dumpOk db = false) :
    removedPathsOf (backupAllDatabasesToS3 w pref).1 =
      (successfulDumpPaths w dbs).reverse ∧
    dumpPath w db ∉ removedPathsOf (backupAllDatabasesToS3 w pref).1 := by
  have htrace : removedPathsOf (backupAllDatabasesToS3 w pref).1 =
      (successfulDumpPaths w dbs).reverse := by
    simp [backupAllDatabasesToS3, henum, removedPathsOf_append,
      backupLoop_no_removed, removedPathsOf_reverse_map_removed,
      backupLoop_deferred]
  refine ⟨htrace, ?_⟩
  rw [htrace, List.mem_reverse]
  intro hmem
  unfold successfulDumpPaths at hmem
  rcases List.mem_filterMap.mp hmem with ⟨d, hd, hif⟩
  cases hok : w.dumpOk d with
  | false => rw [hok] at hif; simp at hif
  | true =>
    rw [hok] at hif
    simp only [if_true] at hif
    injection hif with hif
    have hdd : d = db := dumpPath_inj w d db (hv d hd) (hv db hdb) hif
    rw [hdd] at hok
    rw [hok] at hfail
    exact Bool.noConfusion hfail

/-- C9 witness: the failed `admindb` dump's path is not removed by the
concrete run's cleanup. -/
theorem failed_dump_not_cleaned_witness :
    removedPathsOf
        (backupAllDatabasesToS3 sampleBackupWorld "1700000000".data).1 =
      (successfulDumpPaths sampleBackupWorld
        ["admindb".data, "agentdb".data, "userdb".data]).reverse ∧
    dumpPath sampleBackupWorld "admindb".data ∉
      removedPathsOf
        (backupAllDatabasesToS3 sampleBackupWorld "1700000000".data).1 :=
  failed_dump_not_cleaned sampleBackupWorld "1700000000".data
    ["admindb".data, "agentdb".data, "userdb".data] "admindb".data
    (by rfl) (by decide) (by decide) (by rfl)

/-- C10: With the externally supplied restore prefix empty (unset
environment variable), the restore run does not fail and does not process
zero keys: the empty prefix matches every key, so the run lists the whole
bucket (up to the one response page) and attempts a download for each
listed key. -/
theorem empty_prefix_lists_whole_bucket (v : RestoreWorld)
    (hok : v.s3.listErr = none)
    (hdec : ∀ k ∈ v.s3.keys, 27 ≤ (filepathBase k).length) :
    listS3BackupFiles v.s3 [] = Except.ok (v.s3.keys.take v.s3.pageSize) ∧
    (restoreMain v []).2 = RunOutcome.ok ∧
    downloadAttemptsOf (restoreMain v []).1 =
      v.s3.keys.take v.s3.pageSize := by
  have hfilter : v.s3.keys.filter (fun k => ([] : GoStr).isPrefixOf k) =
      v.s3.keys :=
    List.filter_eq_self.mpr (fun k _ => List.isPrefixOf_nil_left)
  have hlist : listS3BackupFiles v.s3 [] =
      Except.ok (v.s3.keys.take v.s3.pageSize) := by
    simp [listS3BackupFiles, hok, hfilter]
  have hdec2 : ∀ k ∈ v.s3.keys.take v.s3.pageSize,
      27 ≤ (filepathBase k).length :=
    fun k hk => hdec k (List.take_subset _ _ hk)
  obtain ⟨h1, h2, h3⟩ := restoreLoop_no_panic v _ hdec2
  refine ⟨hlist, ?_, ?_⟩
  · simp [restoreMain, restoreAllDatabasesFromS3, hlist, h1]
  · simp [restoreMain, restoreAllDatabasesFromS3, hlist,
      downloadAttemptsOf_append, downloadAttemptsOf_reverse_map_removed, h2]

/-- C10 witness: the concrete two-key bucket restored with the empty
prefix attempts both keys and exits normally. -/
theorem empty_prefix_lists_whole_bucket_witness :
    listS3BackupFiles sampleRestoreWorld.s3 [] =
      Except.ok (sampleRestoreWorld.s3.keys.take
        sampleRestoreWorld.s3.pageSize) ∧
    (restoreMain sampleRestoreWorld []).2 = RunOutcome.ok ∧
    downloadAttemptsOf (restoreMain sampleRestoreWorld []).1 =
      sampleRestoreWorld.s3.keys.take sampleRestoreWorld.s3.pageSize :=
  empty_prefix_lists_whole_bucket sampleRestoreWorld (by rfl) (by decide)

/-- C3 counterexample: decode is not total — on the five-character filename
`x.sql` the slice upper bound `len - 27` is negative, so the Go slice
expression panics instead of returning a name (modelled as `none`). -/
theorem decode_short_filename_no_result : decodeDbName "x.sql".data = none := by
  decide

/-- C3 amended: for every filename of length at least 27 (well-formed or
not), decode returns a result — the filename with its last 27 characters
removed, garbage when the suffix was not well-formed, with no validation;
filenames shorter than 27 characters instead make the slice expression
panic. -/
theorem decode_total_on_long_filenames (f : GoStr) (h : 27 ≤ f.length) :
    decodeDbName f = some (f.take (f.length - 27)) :=
  decodeDbName_of_long f h

/-- C3 amended witness: a 29-character filename with no well-formed suffix
still decodes, to garbage. -/
theorem decode_total_on_long_filenames_witness :
    decodeDbName "gibberish-gibberish-gibberish".data =
      some ("gibberish-gibberish-gibberish".data.take
        ("gibberish-gibberish-gibberish".data.length - 27)) :=
  decode_total_on_long_filenames "gibberish-gibberish-gibberish".data
    (by decide)
